import Mathlib

/-!
Verification development for the imap-hpsm email-to-ticket service.

Each definition below is a shallow embedding of a function of the source
(`imap.js` and the unnamed parts: config, main, rest).  JavaScript promises
are modelled as state-passing computations over an explicit trace of IMAP
move attempts; machine behaviour such as truthiness and the standard
`Promise.prototype.finally` semantics is reproduced explicitly where the
source relies on it.
-/

namespace ImapHpsm

/-! ## Mailbox configuration check (`checkBoxes`, imap.js 184-240)

The IMAP hierarchy returned by `getBoxes` is modelled as an association
list from root mailbox name to its (possibly absent, i.e. `null`) list of
child names.  `mailboxConfig` is an association list from mailbox name to
its configured success/failure children, in configuration order. -/

structure BoxCfg where
  success : String
  failure : String
deriving DecidableEq

/-- One configured mailbox passes the check (`checked` stays `true` through the
`forEach` body, imap.js 206-231).  When the name is missing from the fetched
hierarchy the source executes the `else` branch `logCheckResult(name, true)`,
which leaves `checked` true, so a missing mailbox passes. When the name is
present, both configured children must occur among its children
(`children && box in children` for each of success and failure). -/
def checkOneBox (boxes : List (String × Option (List String))) (name : String)
    (cfg : BoxCfg) : Bool :=
  match boxes.lookup name with
  | none => true
  | some children =>
      (match children with
       | none => false
       | some cs => cs.contains cfg.success) &&
      (match children with
       | none => false
       | some cs => cs.contains cfg.failure)

/-- `checkBoxes` (imap.js 184-240): partition the configured mailbox names, in
configuration order, into the `success` and `failure` lists; resolve with
`success` when it is nonempty, otherwise reject with `failure`. -/
def checkBoxes (config : List (String × BoxCfg))
    (boxes : List (String × Option (List String))) :
    Except (List String) (List String) :=
  let part := config.foldl
    (fun (acc : List String × List String) p =>
      if checkOneBox boxes p.1 p.2 then (acc.1 ++ [p.1], acc.2)
      else (acc.1, acc.2 ++ [p.1]))
    ([], [])
  if part.1.length ≠ 0 then Except.ok part.1 else Except.error part.2

/-! ## Comment creation (`createComment`, part_002 282-344) -/

/-- The comment object built by `doCreateComment` (imap.js 705-709); its
`authorId` is the JS value `null` (`none`) there. -/
structure CommentInput where
  authorId : Option String
  issueId : String
  description : String

/-- The `ZComment` fields POSTed to the Comments endpoint (part_002 285-291). -/
structure ZComment where
  authorId : Option String
  comment : String
  foreignKey : String
  isPublic : Bool
deriving DecidableEq

/-- JS `a || b` on nullable strings: `null`, `undefined` and `''` are falsy. -/
def jsOrString (a b : Option String) : Option String :=
  match a with
  | some s => if s == "" then b else some s
  | none => b

/-- Body of the POST issued by `createComment` (part_002 285-291):
`authorId: comment.authorId || defaults.authorId`, `comment: comment.description`,
`foreignKey: comment.issueId`, `isPublic: true`. -/
def createCommentBody (defaultAuthorId : Option String) (c : CommentInput) : ZComment :=
  { authorId := jsOrString c.authorId defaultAuthorId
    comment := c.description
    foreignKey := c.issueId
    isPublic := true }

/-- The anonymous comment assembled in the not-found branch of the comment flow
(imap.js 705-709 with the author lookup rejected). -/
def anonComment (issueId : String) (body : String) : CommentInput :=
  { authorId := none, issueId := issueId, description := body }

/-! ## Spam gate (`checkSpamByPersonId`, part_002 385-451) -/

/-- The `spam` section of the runtime configuration (part_001 118-132). -/
structure SpamConfig where
  timeSpan : Nat
  maxNumOfIssues : Nat
  headers : List String
  dontCheckAuthors : List String

/-- Outcome of the spam-count database request as observed by the callback in
part_002 417-449: a transport error (`error` truthy), a non-200 status, a body
`JSON.parse` throws on, a missing/empty `results` array, or an issue count. -/
inductive DbOutcome where
  | requestError
  | badStatus
  | parseError
  | noResults
  | issueCount (n : Nat)
deriving DecidableEq

/-- `checkSpamByPersonId` (part_002 385-451).  First component: the settlement
of the returned promise (`Except.ok personId` for resolve, `Except.error ()` for
reject — the source rejects with the person id, which carries no extra
information).  Second component: whether the spam database endpoint was
queried (`request(options, ...)` executed).  `headerPresent h` models
`!!message.header[h]` (a parsed header entry is always a nonempty-truthy
array when present). -/
def checkSpamByPersonId (spam : SpamConfig) (personId : String)
    (headerPresent : String → Bool) (db : DbOutcome) :
    Except Unit String × Bool :=
  if personId ∈ spam.dontCheckAuthors then (Except.ok personId, false)
  else if spam.headers.any headerPresent then (Except.error (), false)
  else
    ((match db with
      | DbOutcome.requestError => Except.ok personId
      | DbOutcome.badStatus => Except.ok personId
      | DbOutcome.parseError => Except.ok personId
      | DbOutcome.noResults => Except.ok personId
      | DbOutcome.issueCount n =>
          if spam.maxNumOfIssues < n then Except.error () else Except.ok personId),
     true)

/-- A database outcome on which the spam-count query itself failed
(network, HTTP status, or an unparsable or empty response body). -/
def dbQueryFailed : DbOutcome → Bool
  | DbOutcome.requestError => true
  | DbOutcome.badStatus => true
  | DbOutcome.parseError => true
  | DbOutcome.noResults => true
  | DbOutcome.issueCount _ => false

/-- The `spam` configuration shipped in the config file (part_001 118-132). -/
def restSpamConfig : SpamConfig :=
  { timeSpan := 30
    maxNumOfIssues := 5
    headers := ["auto-generated", "auto-replied", "auto-notified"]
    dontCheckAuthors := ["PRS000000000001"] }

/-! ## Date fields and timezone offsets (`createIssue`, part_002 204-240) -/

/-- `updateDates` (part_002 204-214): for every field whose value `Date.parse`
accepts (modelled by the oracle `parses`, which reproduces the truthiness test
`if (Date.parse(obj[field]))`), append `timeZone || '+00:00'`. -/
def updateDates (parses : String → Bool) (timeZone : Option String)
    (obj : List (String × String)) : List (String × String) :=
  obj.map (fun kv => if parses kv.2 then (kv.1, kv.2 ++ timeZone.getD "+00:00") else kv)

/-- The timezone step of `createIssue` (part_002 230-239): on a resolved
`getTimezoneOffsetByPersonId` the dates get the fetched offset, on a rejected
one they get the `'+00:00'` default, and `.finally` issues the POST Issues
request in both cases (second component: request issued). -/
def createIssueDates (parses : String → Bool) (tz : Except Unit String)
    (parsedFields : List (String × String)) : List (String × String) × Bool :=
  match tz with
  | Except.ok offset => (updateDates parses (some offset) parsedFields, true)
  | Except.error _ => (updateDates parses none parsedFields, true)

/-- The offset actually appended: the fetched one, or `+00:00` on lookup failure. -/
def appendedOffset : Except Unit String → String
  | Except.ok offset => offset
  | Except.error _ => "+00:00"

/-! ## Per-message dispatch (`doCreateComment` imap.js 698-739,
`doCreateIssue` imap.js 741-777)

A promise chain is modelled as a state-passing computation over the list of
IMAP move commands attempted so far; its settlement is `Except.ok` (resolved)
or `Except.error ()` (rejected; the rejection values of the source carry no
information used downstream).  `pthen`, `pcatch` and `pfinally` reproduce
`Promise.prototype.then`, `.catch` and `.finally`: in particular `.finally`
runs its callback on both settlements and replaces the settlement only when
the callback's result is rejected. -/

/-- A move command attempted via `conn.move` (imap.js 271-291), to the
configured success child or failure child of the mailbox being processed. -/
inductive MoveTo where
  | success
  | failure
deriving DecidableEq

def Prom (α : Type) : Type :=
  List MoveTo → Except Unit α × List MoveTo

/-- `Promise.resolve(a)`. -/
def presolve {α : Type} (a : α) : Prom α := fun t => (Except.ok a, t)

/-- `Promise.reject()`. -/
def preject {α : Type} : Prom α := fun t => (Except.error (), t)

/-- `p.then(f)`. -/
def pthen {α β : Type} (p : Prom α) (f : α → Prom β) : Prom β := fun t =>
  match p t with
  | (Except.ok a, t1) => f a t1
  | (Except.error e, t1) => (Except.error e, t1)

/-- `p.catch(f)`. -/
def pcatch {α : Type} (p : Prom α) (f : Unit → Prom α) : Prom α := fun t =>
  match p t with
  | (Except.ok a, t1) => (Except.ok a, t1)
  | (Except.error e, t1) => f e t1

/-- `p.finally(f)` with the standard semantics of the polyfill loaded by the
main module: the callback runs on both settlements; the original settlement is
kept unless the callback's result rejects, in which case that rejection wins. -/
def pfinally {α β : Type} (p : Prom α) (f : Unit → Prom β) : Prom α := fun t =>
  match p t with
  | (Except.ok a, t1) =>
      match f () t1 with
      | (Except.ok _, t2) => (Except.ok a, t2)
      | (Except.error e, t2) => (Except.error e, t2)
  | (Except.error e, t1) =>
      match f () t1 with
      | (Except.ok _, t2) => (Except.error e, t2)
      | (Except.error e2, t2) => (Except.error e2, t2)

/-- The four ways the call `rest.getPersonIdByEmail(email)` itself can come
out (part_002 45-98): it returns a promise that resolves with a person id, or
a promise that rejects (person not found, bad response, transport error); or
the call never produces a promise at all — `parseEmailAddress` throws a
synchronous `TypeError` when the from-header has no angle-bracketed address
(`String(email).match(/<.*>/)` is `null` and `null[0]` throws, part_002 47),
and for the empty address `<>` the `!address` branch forgets to return its
`Promise.reject(email)` and the function falls through to `undefined`
(part_002 91-93). -/
inductive LookupOutcome where
  | found
  | notFound
  | throwsTypeError
  | returnsUndefined
deriving DecidableEq

/-- Whether the `rest.getPersonIdByEmail(email)` call itself returned a
promise, rather than throwing synchronously or returning `undefined`. -/
def LookupOutcome.isPromise : LookupOutcome → Bool
  | LookupOutcome.found => true
  | LookupOutcome.notFound => true
  | LookupOutcome.throwsTypeError => false
  | LookupOutcome.returnsUndefined => false

/-- Settlements of the collaborator calls and IMAP commands a single dispatch
performs, fixing one execution path through the pipeline.  `createSystemIssue`
is the `onPersonNotFound.createSystemIssue` configuration flag. -/
structure DispatchEnv where
  bodyFetchOk : Bool
  personLookup : LookupOutcome
  spamPass : Bool
  createCommentAnonOk : Bool
  createCommentOk : Bool
  createIssueSystemOk : Bool
  createIssueOk : Bool
  createSystemIssue : Bool
  moveToSuccessOk : Bool
  moveToFailureOk : Bool

/-- `getMessageBody` (imap.js 539-578): resolves with the parsed message or
rejects on a fetch error (imap.js 572-576). -/
def getMessageBodyP (e : DispatchEnv) : Prom Unit := fun t =>
  ((if e.bodyFetchOk then Except.ok () else Except.error ()), t)

/-- The lookup promise `rest.getPersonIdByEmail(email)` once it exists
(`personLookup.isPromise`): resolves with the person id or rejects. -/
def getPersonIdP (e : DispatchEnv) : Prom Unit := fun t =>
  ((if e.personLookup = LookupOutcome.found then Except.ok () else Except.error ()), t)

/-- The step `.then(() => rest.getPersonIdByEmail(email))` of `doCreateIssue`
(imap.js 748).  A synchronous `TypeError` thrown inside the callback rejects
the resulting promise, exactly like a rejected lookup promise, and is caught
by the `.catch` of imap.js 749; a returned `undefined` is a plain value, so
the resulting promise resolves with it and `undefined` flows on into the spam
check as an ordinary (unknown) person id. -/
def getPersonIdThenStep (e : DispatchEnv) : Prom Unit := fun t =>
  ((match e.personLookup with
    | LookupOutcome.found => Except.ok ()
    | LookupOutcome.notFound => Except.error ()
    | LookupOutcome.throwsTypeError => Except.error ()
    | LookupOutcome.returnsUndefined => Except.ok ()), t)

/-- `rest.checkSpamByPersonId` as used by the dispatchers: resolves on a passed
check, rejects on a spam rejection. -/
def checkSpamP (e : DispatchEnv) : Prom Unit := fun t =>
  ((if e.spamPass then Except.ok () else Except.error ()), t)

/-- `rest.createComment` / `rest.createIssue` with the given settlement. -/
def restCallP (ok : Bool) : Prom Unit := fun t =>
  ((if ok then Except.ok () else Except.error ()), t)

/-- `saveMessageAttachments` (imap.js 329-373) always resolves: attachment
save errors call `resolve` (imap.js 349-353) and `Promise.all(...).finally`
resolves the wrapper. -/
def saveMessageAttachmentsP : Prom Unit := presolve ()

/-- `saveEmlAsAttachment` (imap.js 293-327) always resolves: fetch and stream
errors call `resolve` (imap.js 309-322). -/
def saveEmlAsAttachmentP : Prom Unit := presolve ()

/-- `moveMessageFn(conn, successBoxName)` applied to the message: records the
attempted move and settles according to the IMAP `move` outcome. -/
def moveOnSuccessP (e : DispatchEnv) : Prom Unit := fun t =>
  ((if e.moveToSuccessOk then Except.ok () else Except.error ()), t ++ [MoveTo.success])

/-- `moveMessageFn(conn, failureBoxName)` applied to the message. -/
def moveOnFailureP (e : DispatchEnv) : Prom Unit := fun t =>
  ((if e.moveToFailureOk then Except.ok () else Except.error ()), t ++ [MoveTo.failure])

/-- `doCreateComment` (imap.js 698-739), with the continuation nesting of the
source reproduced verbatim:

    getMessageBody(conn, message)
      .then(() => getPersonIdByEmail(email)
        .catch(() => createComment(anon).then(save).then(() => moveOk.catch(resolve))
                       .catch(() => moveFail).finally(() => Promise.reject()))
        .then(authorId => checkSpam(authorId).then(resolve).catch(() => moveFail.finally(reject)))
        .then(authorId => merge)
        .then(comment => createComment(comment).then(save).then(() => moveOk.catch(resolve))
                       .catch(() => moveFail).finally(() => Promise.resolve()))
        .finally(() => Promise.resolve()))
      .catch(() => Promise.resolve())

When the `rest.getPersonIdByEmail(email)` call at imap.js 712 throws its
synchronous `TypeError` (from-header without an angle-bracketed address), or
returns `undefined` so that the `.catch` property access throws, the whole
`.then` callback throws before the inner chain exists: its promise rejects and
falls straight to the final `.catch(() => Promise.resolve())` — modelled by
the `else` branch on `personLookup.isPromise`. -/
def doCreateComment (e : DispatchEnv) : Prom Unit :=
  pcatch
    (pthen (getMessageBodyP e) (fun _ =>
      if e.personLookup.isPromise then
      pfinally
        (pthen
          (pthen
            (pthen
              (pcatch (getPersonIdP e) (fun _ =>
                pfinally
                  (pcatch
                    (pthen
                      (pthen (restCallP e.createCommentAnonOk) (fun _ => saveMessageAttachmentsP))
                      (fun _ => pcatch (moveOnSuccessP e) (fun _ => presolve ())))
                    (fun _ => moveOnFailureP e))
                  (fun _ => (preject : Prom Unit))))
              (fun _ =>
                pcatch (pthen (checkSpamP e) (fun a => presolve a))
                  (fun _ => pfinally (moveOnFailureP e) (fun _ => (preject : Prom Unit)))))
            (fun _ => presolve ()))
          (fun _ =>
            pfinally
              (pcatch
                (pthen
                  (pthen (restCallP e.createCommentOk) (fun _ => saveMessageAttachmentsP))
                  (fun _ => pcatch (moveOnSuccessP e) (fun _ => presolve ())))
                (fun _ => moveOnFailureP e))
              (fun _ => presolve ())))
        (fun _ => presolve ())
      else (preject : Prom Unit)))
    (fun _ => presolve ())

/-- `doCreateIssue` (imap.js 741-777), with the continuation nesting of the
source reproduced verbatim:

    getMessageBody(conn, message)
      .then(() => getPersonIdByEmail(email))
      .catch(() => createSystemIssue
        ? createIssue(makeIssue(message))
            .catch(() => moveFail.finally(reject)).then(saveEml).then(save)
            .then(() => moveOk).finally(() => Promise.reject())
        : moveFail.finally(() => Promise.reject()))
      .then(authorId => checkSpam(authorId).catch(() => moveFail.finally(reject)).then(resolve))
      .then(id => createIssue(...).catch(() => moveFail.then(() => Promise.reject()))
            .then(saveEml).then(save).then(() => moveOk)) -/
def doCreateIssue (e : DispatchEnv) : Prom Unit :=
  pthen
    (pthen
      (pcatch
        (pthen (getMessageBodyP e) (fun _ => getPersonIdThenStep e))
        (fun _ =>
          if e.createSystemIssue then
            pfinally
              (pthen
                (pthen
                  (pthen
                    (pcatch (restCallP e.createIssueSystemOk)
                      (fun _ => pfinally (moveOnFailureP e) (fun _ => (preject : Prom Unit))))
                    (fun _ => saveEmlAsAttachmentP))
                  (fun _ => saveMessageAttachmentsP))
                (fun _ => moveOnSuccessP e))
              (fun _ => (preject : Prom Unit))
          else
            pfinally (moveOnFailureP e) (fun _ => (preject : Prom Unit))))
      (fun _ =>
        pthen
          (pcatch (checkSpamP e)
            (fun _ => pfinally (moveOnFailureP e) (fun _ => (preject : Prom Unit))))
          (fun a => presolve a)))
    (fun _ =>
      pthen
        (pthen
          (pthen
            (pcatch (restCallP e.createIssueOk)
              (fun _ => pthen (moveOnFailureP e) (fun _ => (preject : Prom Unit))))
            (fun _ => saveEmlAsAttachmentP))
          (fun _ => saveMessageAttachmentsP))
        (fun _ => moveOnSuccessP e))

/-- The move commands attempted over a whole dispatch started on an empty trace. -/
def movesOf (p : Prom Unit) : List MoveTo := (p []).2

/-- A dispatch environment in which the full body fetch fails and every other
step would succeed. -/
def envBodyFetchFails : DispatchEnv :=
  ⟨false, LookupOutcome.found, true, true, true, true, true, true, true, true⟩

/-- A dispatch environment in which every step succeeds. -/
def envAllOk : DispatchEnv :=
  ⟨true, LookupOutcome.found, true, true, true, true, true, true, true, true⟩

/-- A dispatch environment in which the body fetch succeeds but the person
lookup call throws its synchronous `TypeError` (from-header without an
angle-bracketed address); every other step would succeed. -/
def envLookupThrows : DispatchEnv :=
  ⟨true, LookupOutcome.throwsTypeError, true, true, true, true, true, true, true, true⟩

/-! ## Dispatch ordering within one mailbox (`processBox`, imap.js 659-692)

`processBox` launches the per-message pipelines with
`Promise.all(messages.map(processMessage))` (imap.js 688-691).  `Array.map`
invokes `processMessage` synchronously on each collected message, in
server-returned order, so the start of every pipeline happens during the map
loop; each pipeline then suspends on I/O (its first step issues an HTTP
request), so every settlement happens in a later event-loop turn, in an order
determined by I/O timing.  A run is therefore modelled as the trace of all
start events, in UID order, followed by the settle events in an arbitrary
I/O-determined order. -/

inductive DispatchEv where
  | start (uid : Nat)
  | settle (uid : Nat)
deriving DecidableEq

/-- Event trace of `Promise.all(messages.map(processMessage))` for a poll of
one mailbox: `uids` in server-returned order, `settleOrder` the order in which
the pipelines happen to settle. -/
def processBoxDispatchTrace (uids : List Nat) (settleOrder : List Nat) : List DispatchEv :=
  uids.map DispatchEv.start ++ settleOrder.map DispatchEv.settle

/-- Position of the start event of message `u` in a trace. -/
def startIdx (tr : List DispatchEv) (u : Nat) : Option Nat :=
  tr.findIdx? (fun ev => ev = DispatchEv.start u)

/-- Position of the settle event of message `u` in a trace. -/
def settleIdx (tr : List DispatchEv) (u : Nat) : Option Nat :=
  tr.findIdx? (fun ev => ev = DispatchEv.settle u)

/-- The claim's ordering property: the pipeline of each message begins only
after the pipeline of the previous message (in `uids` order) has settled. -/
def dispatchedSequentially (tr : List DispatchEv) (uids : List Nat) : Prop :=
  ∀ i u v, uids[i]? = some u → uids[i + 1]? = some v →
    ∀ su sv, settleIdx tr u = some su → startIdx tr v = some sv → su < sv

/-! ## Body date attributes (`parseDate` imap.js 380-389,
`parsePermittedAttributes` imap.js 396-427)

The regular expression
`(\d{2})[-\/](\d{2})[-\/](\d{4})\s*(\d{2}:\d{2})?` of `parseDate` is embedded
directly: a scan for its leftmost match, the captured groups, and the
replacement `` `${p3}-${p2}-${p1}T` + (p4 ? `${p4}:00` : '23:59:59') ``
performed by `String.prototype.replace`. -/

/-- A date separator: dash or slash. -/
def isDateSepCh (c : Char) : Bool := c == '-' || c == '/'

/-- The JS `\s` class on the ASCII range relevant here. -/
def isJsSpace (c : Char) : Bool :=
  c == ' ' || c == '\t' || c == '\n' || c == '\r' || c == '\x0b' || c == '\x0c'

/-- The four capture groups of the date regular expression. -/
structure DateGroups where
  p1 : List Char
  p2 : List Char
  p3 : List Char
  p4 : Option (List Char)

/-- Match the date regular expression at the head of the character list;
returns the length of the whole match and the captured groups.  The greedy
`\s*` consumes all whitespace after the year; the optional time group matches
exactly when five characters of the shape `\d{2}:\d{2}` follow it. -/
def matchDateAt : List Char → Option (Nat × DateGroups)
  | d1 :: d2 :: s1 :: m1 :: m2 :: s2 :: y1 :: y2 :: y3 :: y4 :: rest =>
      if d1.isDigit && d2.isDigit && isDateSepCh s1 && m1.isDigit && m2.isDigit &&
         isDateSepCh s2 && y1.isDigit && y2.isDigit && y3.isDigit && y4.isDigit then
        let ws := rest.takeWhile isJsSpace
        let tail := rest.dropWhile isJsSpace
        match tail with
        | h1 :: h2 :: co :: q1 :: q2 :: _ =>
            if h1.isDigit && h2.isDigit && co == ':' && q1.isDigit && q2.isDigit then
              some (10 + ws.length + 5,
                ⟨[d1, d2], [m1, m2], [y1, y2, y3, y4], some [h1, h2, co, q1, q2]⟩)
            else some (10 + ws.length, ⟨[d1, d2], [m1, m2], [y1, y2, y3, y4], none⟩)
        | _ => some (10 + ws.length, ⟨[d1, d2], [m1, m2], [y1, y2, y3, y4], none⟩)
      else none
  | _ => none

/-- The replacement text `` `${p3}-${p2}-${p1}T` + (p4 ? `${p4}:00` : '23:59:59') ``. -/
def dateReplacement (g : DateGroups) : List Char :=
  g.p3 ++ '-' :: (g.p2 ++ '-' :: (g.p1 ++ 'T' ::
    (match g.p4 with
     | some t => t ++ [':', '0', '0']
     | none => ['2', '3', ':', '5', '9', ':', '5', '9'])))

/-- `String.prototype.replace` with a non-global regex: replace the leftmost
match, leave the string unchanged when there is none. -/
def replaceFirstDateAux : List Char → Option (List Char)
  | [] => none
  | c :: rest =>
      match matchDateAt (c :: rest) with
      | some (len, g) => some (dateReplacement g ++ (c :: rest).drop len)
      | none => (replaceFirstDateAux rest).map (fun l => c :: l)

def jsReplaceDateOnce (s : String) : String :=
  match replaceFirstDateAux s.data with
  | some l => ⟨l⟩
  | none => s

/-- `parseDate` (imap.js 380-389).  `matched` is the input with the leftmost
date match replaced.  `new Date(matched)` is an object, so the guard
`date && date !== 'Invalid Date'` compares a `Date` object against a string
and is true for every nonempty `matched`: `parseDate` returns the replaced
string whenever the input is nonempty and `NaN` (here `none`) only for the
empty string — the invalid-date check never rejects anything. -/
def parseDate (s : String) : Option String :=
  let matched := jsReplaceDateOnce s
  if matched == "" then none else some matched

/-- The `date` branch of `parsePermittedAttributes` (imap.js 416-419): when
`parseDate` returns a truthy value for the matched attribute text, that value
is stored in `parsedFields` under the attribute key. -/
def storeDateField (fields : List (String × String)) (key : String)
    (matched : String) : List (String × String) :=
  match parseDate matched with
  | some d => fields ++ [(key, d)]
  | none => fields

/-- Modelled from the spec: a string "parses as a valid ISO 8601 local-time
string" when it has the shape `YYYY-MM-DDTHH:MM:SS` made of digits, the month
and day form an existing calendar date, and the time of day is valid. -/
def isValidIsoLocalTime (s : String) : Bool :=
  match s.data with
  | [y1, y2, y3, y4, c1, m1, m2, c2, d1, d2, ct, h1, h2, c3, n1, n2, c4, x1, x2] =>
      y1.isDigit && y2.isDigit && y3.isDigit && y4.isDigit &&
      m1.isDigit && m2.isDigit && d1.isDigit && d2.isDigit &&
      h1.isDigit && h2.isDigit && n1.isDigit && n2.isDigit &&
      x1.isDigit && x2.isDigit &&
      c1 == '-' && c2 == '-' && ct == 'T' && c3 == ':' && c4 == ':' &&
      (let year := ((y1.toNat - 48) * 10 + (y2.toNat - 48)) * 100 +
        ((y3.toNat - 48) * 10 + (y4.toNat - 48))
       let month := (m1.toNat - 48) * 10 + (m2.toNat - 48)
       let day := (d1.toNat - 48) * 10 + (d2.toNat - 48)
       let hour := (h1.toNat - 48) * 10 + (h2.toNat - 48)
       let minute := (n1.toNat - 48) * 10 + (n2.toNat - 48)
       let second := (x1.toNat - 48) * 10 + (x2.toNat - 48)
       let leap := (year % 4 == 0 && year % 100 != 0) || year % 400 == 0
       let dim : Nat :=
         if month == 2 then (if leap then 29 else 28)
         else if month == 4 || month == 6 || month == 9 || month == 11 then 30
         else 31
       1 ≤ month && month ≤ 12 && 1 ≤ day && day ≤ dim &&
         hour ≤ 23 && minute ≤ 59 && second ≤ 59)
  | _ => false

/-! ## Delimiter truncation (`removeComments`, imap.js 439-537)

A configured delimiter (a literal string or a regular expression handed to
`String.prototype.search`) is embedded as its search function: the index of
its first match in a string, `none` when it does not match.  The `cheerio`
DOM branch taken for HTML bodies (imap.js 458-536) is outside the scope of
the text-mode claims and is kept abstract as the `htmlTruncate` argument. -/

/-- `isHtml` (imap.js 429-431), the test of the anchored regex: `<`, then
any whitespace, then `html` case-insensitively, then any characters other
than `>`, then `>`. -/
def isHtml (s : String) : Bool :=
  match s.data with
  | '<' :: rest =>
      match rest.dropWhile isJsSpace with
      | h :: t :: m :: l :: rest2 =>
          h.toLower == 'h' && t.toLower == 't' && m.toLower == 'm' && l.toLower == 'l' &&
            rest2.any (fun c => c == '>')
      | _ => false
  | _ => false

/-- The global replacement of `\r?\n` by `<br>` (imap.js 455): each CRLF pair
and each bare LF becomes `<br>`; a bare CR is untouched. -/
def replaceNewlinesBr : List Char → List Char
  | [] => []
  | '\r' :: '\n' :: rest => '<' :: 'b' :: 'r' :: '>' :: replaceNewlinesBr rest
  | '\n' :: rest => '<' :: 'b' :: 'r' :: '>' :: replaceNewlinesBr rest
  | c :: rest => c :: replaceNewlinesBr rest

/-- One step of the text-mode loop (imap.js 451-454): `result.search(delimiter)`
and, on a match at index `i`, `result.substring(0, i)`. -/
def jsSearchCut (search : String → Option Nat) (r : String) : String :=
  match search r with
  | some i => ⟨r.data.take i⟩
  | none => r

/-- `removeComments` (imap.js 439-456 for the text path): return the body
unchanged unless `truncateCommentsAfterDelimiter` is set and the delimiter
list is nonempty; hand HTML bodies to the DOM branch; otherwise cut the body
at the first match of each delimiter in configuration order and finish by
replacing each `\r?\n` with `<br>`. -/
def removeComments (truncateCommentsAfterDelimiter : Bool)
    (commentDelimiters : List (String → Option Nat))
    (htmlTruncate : String → String) (body : String) : String :=
  if truncateCommentsAfterDelimiter && !commentDelimiters.isEmpty then
    if isHtml body then htmlTruncate body
    else ⟨replaceNewlinesBr
      (commentDelimiters.foldl (fun r d => jsSearchCut d r) body).data⟩
  else body

/-- Whether `pat` is an initial segment of `l` (used by the literal-string
delimiter search). -/
def headSegEq : List Char → List Char → Bool
  | [], _ => true
  | _ :: _, [] => false
  | a :: as, b :: bs => a == b && headSegEq as bs

/-- Index of the first occurrence of the literal `pat` in `l`. -/
def firstMatchIdx (pat : List Char) : List Char → Option Nat
  | [] =>
      match pat with
      | [] => some 0
      | _ :: _ => none
  | c :: rest =>
      if headSegEq pat (c :: rest) then some 0
      else (firstMatchIdx pat rest).map (fun n => n + 1)

/-- The search function of a literal-string delimiter such as the configured
`'Best regards'` (part_001 110-115): `String.prototype.search` coerces it to a
regex; these literals contain no metacharacters, so the search is a substring
search. -/
def litSearch (pat : String) (s : String) : Option Nat :=
  firstMatchIdx pat.data s.data

/-! ## Sender address extraction (`parseEmailAddress` part_002 45-50,
`getPersonIdByEmail` part_002 52-98)

`String(email).match(/<.*>/)[0]` either throws a `TypeError` (when `match`
returns `null` and `null[0]` is evaluated) or yields the leftmost, greedy
match: starting at the first `<` that is followed — with no intervening
LineTerminator, since `.` matches no LineTerminator — by some `>`, up to the
last such `>`.  `Except.error ()` models the synchronous `TypeError`. -/

/-- A JavaScript LineTerminator, none of which `.` in a regex matches:
LINE FEED, CARRIAGE RETURN, LINE SEPARATOR, PARAGRAPH SEPARATOR. -/
def isLineTerminator (c : Char) : Bool :=
  c == '\n' || c == '\r' || c == '\u2028' || c == '\u2029'

/-- Index of the last `>` in a character list. -/
def lastGtIdx : List Char → Option Nat
  | [] => none
  | c :: rest =>
      match lastGtIdx rest with
      | some j => some (j + 1)
      | none => if c == '>' then some 0 else none

/-- The leftmost greedy match of the regex: at each `<`, the run of characters
before the next LineTerminator is searched for its last `>`; if there is none
the scan resumes after the `<`. -/
def jsMatchAngle : List Char → Option (List Char)
  | [] => none
  | c :: rest =>
      if c == '<' then
        match lastGtIdx (rest.takeWhile (fun x => !(isLineTerminator x))) with
        | some j => some ('<' :: (rest.takeWhile (fun x => !(isLineTerminator x))).take (j + 1))
        | none => jsMatchAngle rest
      else jsMatchAngle rest

/-- The global replacement of `[<>]*` by the empty string (part_002 48):
drop every angle bracket. -/
def stripAngleBrackets (cs : List Char) : List Char :=
  cs.filter (fun c => !(c == '<') && !(c == '>'))

/-- `parseEmailAddress` (part_002 45-50).  On a match the brackets are
stripped; the final `address || ''` yields the same string, since the empty
string is its own fallback.  With no match the synchronous `TypeError` of
`null[0]` is modelled by `Except.error ()`. -/
def parseEmailAddress (email : String) : Except Unit String :=
  match jsMatchAngle email.data with
  | none => Except.error ()
  | some m => Except.ok ⟨stripAngleBrackets m⟩

/-- The synchronous prefix of `getPersonIdByEmail` (part_002 52-98):
`parseEmailAddress` runs before any promise is constructed, so its
`TypeError` propagates synchronously (`Except.error ()`).  `Except.ok none`
models the `!address` branch, which forgets to return its
`Promise.reject(email)` and falls through to `undefined`; `Except.ok (some a)`
models returning the pending lookup promise for `?email=a`. -/
def getPersonIdByEmail (email : String) : Except Unit (Option String) :=
  match parseEmailAddress email with
  | Except.error e => Except.error e
  | Except.ok address =>
      if address == "" then Except.ok none else Except.ok (some address)

/-- The claim's hypothesis: the string contains an angle-bracket-delimited
substring (with no LineTerminator between the brackets, as `.` in the source
regex matches no LineTerminator). -/
def HasAngleAddress (cs : List Char) : Prop :=
  ∃ a b c, cs = a ++ '<' :: (b ++ '>' :: c) ∧ ∀ x ∈ b, isLineTerminator x = false

end ImapHpsm

namespace ImapHpsm

/-! ## Theorems -/

/-- Claim C1 counterexample: when the full body fetch fails inside
`doCreateComment` (the `getMessageBody` promise rejects, imap.js 572-576), the
final `.catch(() => Promise.resolve())` (imap.js 738) settles the dispatch
without any move command being attempted — zero moves, not exactly one. -/
theorem doCreateComment_bodyFetchFail_noMove :
    movesOf (doCreateComment envBodyFetchFails) = [] := by decide

/-- Claim C1 (amended): a `doCreateIssue` dispatch attempts exactly one move
command (to the success child or the failure child) on every execution path —
including body-fetch failure, REST failure, spam rejection, and a person
lookup call that throws synchronously or returns `undefined`.  A
`doCreateComment` dispatch attempts exactly one move command on every path on
which the body fetch succeeds and the person lookup call itself returns a
promise (whether it resolves or rejects); it attempts no move at all when the
body fetch fails, or when the lookup call throws its synchronous `TypeError`
(from-header without an angle-bracketed address) or returns `undefined` (the
`<>` empty-address fall-through), all of which the final
`.catch(() => Promise.resolve())` settles without moving the message. -/
theorem dispatch_exactly_one_move (e : DispatchEnv) :
    (movesOf (doCreateIssue e)).length = 1 ∧
    (e.bodyFetchOk = true → e.personLookup.isPromise = true →
      (movesOf (doCreateComment e)).length = 1) ∧
    ((e.bodyFetchOk = false ∨ e.personLookup.isPromise = false) →
      (movesOf (doCreateComment e)).length = 0) := by
  obtain ⟨b1, o, b3, b4, b5, b6, b7, b8, b9, b10⟩ := e
  cases o <;> (revert b1 b3 b4 b5 b6 b7 b8 b9 b10; decide)

/-- Witness for `dispatch_exactly_one_move`: the all-success path, and the
zero-move path on which the lookup call throws. -/
theorem dispatch_exactly_one_move_witness :
    (movesOf (doCreateIssue envAllOk)).length = 1 ∧
    (movesOf (doCreateComment envAllOk)).length = 1 ∧
    (movesOf (doCreateComment envLookupThrows)).length = 0 :=
  ⟨(dispatch_exactly_one_move envAllOk).1,
   (dispatch_exactly_one_move envAllOk).2.1 rfl rfl,
   (dispatch_exactly_one_move envLookupThrows).2.2 (Or.inr rfl)⟩

/-- Claim C2 (code bug, evaluated at the failing input): with mailbox
configuration `INBOX`, `Drafts` (the S5 scenario) and a fetched hierarchy in
which `Drafts` is absent while `INBOX` carries both configured children,
`checkBoxes` resolves with `["INBOX", "Drafts"]`: the absent mailbox is placed
in the passed list and is subsequently polled, contradicting the claim that an
absent mailbox lands in `failed[]`. -/
theorem checkBoxes_missing_mailbox_passes :
    checkBoxes
      [("INBOX", ⟨"Processed", "Unprocessed"⟩), ("Drafts", ⟨"Processed", "Unprocessed"⟩)]
      [("INBOX", some ["Processed", "Unprocessed"])]
      = Except.ok ["INBOX", "Drafts"] := by rfl

/-- Claim C3 counterexample: for the anonymous comment built by the comment
flow for issue SRQ000000000354 (spec scenario S2), the POSTed `ZComment` does
not carry `authorId = null`: `createComment` substitutes the configured
default author. -/
theorem createComment_anon_not_null :
    (createCommentBody (some "PRS000000000001")
        (anonComment "SRQ000000000354" "please check<br>")).authorId ≠ none := by
  decide

/-- Claim C3 (amended): whenever the sender's person lookup fails, the comment
POSTed to the Comments endpoint carries `authorId = defaultIssueAttrs.authorId`
— `createComment` replaces the `null` author of the anonymous comment with the
configured default author. -/
theorem createComment_anon_default_author (d : Option String) (c : CommentInput)
    (h : c.authorId = none) : (createCommentBody d c).authorId = d := by
  simp [createCommentBody, jsOrString, h]

/-- Witness for `createComment_anon_default_author` at the S2 comment. -/
theorem createComment_anon_default_author_witness :
    (anonComment "SRQ000000000354" "please check<br>").authorId = none ∧
    (createCommentBody (some "PRS000000000001")
        (anonComment "SRQ000000000354" "please check<br>")).authorId
      = some "PRS000000000001" :=
  ⟨rfl, createComment_anon_default_author (some "PRS000000000001")
    (anonComment "SRQ000000000354" "please check<br>") rfl⟩

/-- Claim C4 counterexample: for a poll that collected the two messages with
UIDs 1 and 2, the `Promise.all(messages.map(processMessage))` trace is
`[start 1, start 2, settle 1, settle 2]`: the pipeline of message 2 begins (at
position 1) before the pipeline of message 1 has settled (at position 2), so
the dispatch is not sequential. -/
theorem processBox_dispatch_not_sequential :
    ¬ dispatchedSequentially (processBoxDispatchTrace [1, 2] [1, 2]) [1, 2] := by
  intro h
  have h21 : (2 : Nat) < 1 := h 0 1 2 rfl rfl 2 1 rfl rfl
  omega

/-- Claim C4 (amended): within one mailbox the per-message pipelines are
started concurrently by `Promise.all(messages.map(...))`: every pipeline's
start event precedes every settle event, the starts occur in server-returned
UID order (the start at trace position `i` belongs to `uids[i]`), and each
pipeline runs regardless of how the others settle. -/
theorem processBox_starts_before_settles (uids settleOrder : List Nat) :
    (∀ (i j u v : Nat),
        (processBoxDispatchTrace uids settleOrder)[i]? = some (DispatchEv.start u) →
        (processBoxDispatchTrace uids settleOrder)[j]? = some (DispatchEv.settle v) →
        i < j) ∧
    (∀ (i u : Nat),
        (processBoxDispatchTrace uids settleOrder)[i]? = some (DispatchEv.start u) →
        uids[i]? = some u) := by
  have hstart : ∀ (i u : Nat),
      (processBoxDispatchTrace uids settleOrder)[i]? = some (DispatchEv.start u) →
      i < uids.length := by
    intro i u hi
    by_contra hge
    push_neg at hge
    rw [processBoxDispatchTrace,
      List.getElem?_append_right (by simpa using hge), List.getElem?_map] at hi
    rcases hmap : settleOrder[i - (uids.map DispatchEv.start).length]? with _ | w <;>
      rw [hmap] at hi <;> simp at hi
  constructor
  · intro i j u v hi hj
    have hilt := hstart i u hi
    have hjge : uids.length ≤ j := by
      by_contra hlt
      push_neg at hlt
      rw [processBoxDispatchTrace,
        List.getElem?_append_left (by simpa using hlt), List.getElem?_map] at hj
      rcases hmap : uids[j]? with _ | w <;> rw [hmap] at hj <;> simp at hj
    omega
  · intro i u hi
    have hilt := hstart i u hi
    rw [processBoxDispatchTrace,
      List.getElem?_append_left (by simpa using hilt), List.getElem?_map] at hi
    rcases hmap : uids[i]? with _ | w <;> rw [hmap] at hi <;> simp at hi
    simp [hi, hmap]

/-- Witness for `processBox_starts_before_settles` on the two-message trace
`[start 1, start 2, settle 2, settle 1]`. -/
theorem processBox_starts_before_settles_witness :
    ((processBoxDispatchTrace [1, 2] [2, 1])[1]? = some (DispatchEv.start 2) ∧
      (processBoxDispatchTrace [1, 2] [2, 1])[2]? = some (DispatchEv.settle 2)) ∧
    (1 : Nat) < 2 ∧ [1, 2][1]? = some 2 :=
  ⟨⟨rfl, rfl⟩,
   (processBox_starts_before_settles [1, 2] [2, 1]).1 1 2 2 2 rfl rfl,
   (processBox_starts_before_settles [1, 2] [2, 1]).2 1 2 rfl⟩

/-- Claim C5 (code bug, evaluated at the failing input): the body-attribute
text `99/99/2020` matches the date grammar `DD-MM-YYYY | DD/MM/YYYY` of the
`date` type, so the comment flow stores `2020-99-99T23:59:59` in
`parsedFields.requiredOn`; that stored value is not a valid ISO 8601
local-time string.  The invalid-date guard of `parseDate` (imap.js 388,
`date && date !== 'Invalid Date'`) compares a `Date` object with a string and
never fires, so the canonicalized-but-invalid value is kept. -/
theorem parseDate_stores_invalid_date :
    storeDateField [] "requiredOn" "99/99/2020"
      = [("requiredOn", "2020-99-99T23:59:59")] ∧
    isValidIsoLocalTime "2020-99-99T23:59:59" = false := by decide

/-- Claim C6: for a person id listed in `spam.dontCheckAuthors` the spam check
resolves with that person id and the spam database endpoint is never queried,
whatever headers the message carries and whatever the database would answer. -/
theorem checkSpam_dontCheckAuthors (spam : SpamConfig) (personId : String)
    (headerPresent : String → Bool) (db : DbOutcome)
    (h : personId ∈ spam.dontCheckAuthors) :
    checkSpamByPersonId spam personId headerPresent db = (Except.ok personId, false) := by
  simp [checkSpamByPersonId, h]

/-- Witness for `checkSpam_dontCheckAuthors`: the configured system author,
with an auto-reply header present and a database that would report spam. -/
theorem checkSpam_dontCheckAuthors_witness :
    "PRS000000000001" ∈ restSpamConfig.dontCheckAuthors ∧
    checkSpamByPersonId restSpamConfig "PRS000000000001" (fun _ => true)
        (DbOutcome.issueCount 7)
      = (Except.ok "PRS000000000001", false) :=
  ⟨by decide,
   checkSpam_dontCheckAuthors restSpamConfig "PRS000000000001" (fun _ => true)
     (DbOutcome.issueCount 7) (by decide)⟩

/-- Claim C7: for a person id not in `dontCheckAuthors` and a message carrying
none of the configured spam headers, a failing database query (transport error,
non-200 status, unparsable or empty body) still lets the spam check resolve:
the gate fails open. -/
theorem checkSpam_failOpen (spam : SpamConfig) (personId : String)
    (headerPresent : String → Bool) (db : DbOutcome)
    (h1 : personId ∉ spam.dontCheckAuthors)
    (h2 : ∀ hd ∈ spam.headers, headerPresent hd = false)
    (h3 : dbQueryFailed db = true) :
    checkSpamByPersonId spam personId headerPresent db = (Except.ok personId, true) := by
  have hany : spam.headers.any headerPresent = false := by
    rw [List.any_eq_false]
    intro hd hmem
    simp [h2 hd hmem]
  cases db <;>
    simp_all [checkSpamByPersonId, dbQueryFailed]

/-- Witness for `checkSpam_failOpen`: an unknown person, no auto-reply headers,
and a spam database answering with a non-200 status. -/
theorem checkSpam_failOpen_witness :
    "PRS000000000042" ∉ restSpamConfig.dontCheckAuthors ∧
    dbQueryFailed DbOutcome.badStatus = true ∧
    checkSpamByPersonId restSpamConfig "PRS000000000042" (fun _ => false)
        DbOutcome.badStatus
      = (Except.ok "PRS000000000042", true) :=
  ⟨by decide, rfl,
   checkSpam_failOpen restSpamConfig "PRS000000000042" (fun _ => false)
     DbOutcome.badStatus (by decide) (fun _ _ => rfl) rfl⟩

/-- Helper: when no delimiter matches the body, the cut loop of the text mode
leaves the body unchanged. -/
theorem foldl_cut_no_match (delims : List (String → Option Nat)) (body : String)
    (h : ∀ d ∈ delims, d body = none) :
    delims.foldl (fun r d => jsSearchCut d r) body = body := by
  induction delims with
  | nil => rfl
  | cons d ds ih =>
      have hd : d body = none := h d (List.mem_cons_self d ds)
      have hcut : jsSearchCut d body = body := by simp [jsSearchCut, hd]
      simp only [List.foldl_cons, hcut]
      exact ih (fun d2 h2 => h d2 (List.mem_cons_of_mem d h2))

/-- Claim C8: for a non-HTML body with truncation enabled, `removeComments`
returns the body cut at the first match of each delimiter applied in
configuration order, with every `\r?\n` then replaced by `<br>`; in
particular, when no configured delimiter matches the body the only
transformation is the newline replacement, and with truncation disabled
`removeComments` is the identity. -/
theorem removeComments_text_mode (delims : List (String → Option Nat))
    (htmlTruncate : String → String) (body : String)
    (hne : delims ≠ []) (hh : isHtml body = false) :
    removeComments true delims htmlTruncate body =
      ⟨replaceNewlinesBr (delims.foldl (fun r d => jsSearchCut d r) body).data⟩ ∧
    ((∀ d ∈ delims, d body = none) →
      removeComments true delims htmlTruncate body = ⟨replaceNewlinesBr body.data⟩) ∧
    removeComments false delims htmlTruncate body = body := by
  have hne2 : delims.isEmpty = false := by simpa [List.isEmpty_iff] using hne
  refine ⟨?_, fun hnm => ?_, ?_⟩
  · simp [removeComments, hne2, hh]
  · simp [removeComments, hne2, hh, foldl_cut_no_match delims body hnm]
  · simp [removeComments]

/-- Witness for `removeComments_text_mode`: the configured literal delimiter
`Best regards` does not match `hello\nworld`, so only the newline is
rewritten. -/
theorem removeComments_text_mode_witness :
    removeComments true [litSearch "Best regards"] id "hello\nworld"
      = ⟨replaceNewlinesBr "hello\nworld".data⟩ :=
  (removeComments_text_mode [litSearch "Best regards"] id "hello\nworld"
      (by simp) (by decide)).2.1 (by
    intro d hd
    rw [List.mem_singleton] at hd
    subst hd
    decide)

/-- Claim C9: during issue creation every `parsedFields` entry whose value
parses as a date has the resolved timezone offset appended — `+00:00` when the
timezone lookup failed — the other entries are unchanged, and the POST Issues
request is issued regardless of the lookup's outcome. -/
theorem createIssue_timezone (parses : String → Bool) (tz : Except Unit String)
    (pf : List (String × String)) (k v : String) (hmem : (k, v) ∈ pf) :
    (createIssueDates parses tz pf).2 = true ∧
    (parses v = true → (k, v ++ appendedOffset tz) ∈ (createIssueDates parses tz pf).1) ∧
    (parses v = false → (k, v) ∈ (createIssueDates parses tz pf).1) := by
  refine ⟨by cases tz <;> rfl, fun hp => ?_, fun hp => ?_⟩ <;>
  · cases tz <;>
    · simp only [createIssueDates, updateDates, appendedOffset]
      refine List.mem_map.2 ⟨(k, v), hmem, ?_⟩
      simp [hp, Option.getD]

/-- Witness for `createIssue_timezone`: a single date field with a resolved
`+03:00` offset (the spec's example value). -/
theorem createIssue_timezone_witness :
    ("requiredOn", "2020-02-01T23:59:59") ∈ [("requiredOn", "2020-02-01T23:59:59")] ∧
    (createIssueDates (fun s => s == "2020-02-01T23:59:59") (Except.ok "+03:00")
        [("requiredOn", "2020-02-01T23:59:59")]).2 = true ∧
    ("requiredOn", "2020-02-01T23:59:59" ++ appendedOffset (Except.ok "+03:00")) ∈
      (createIssueDates (fun s => s == "2020-02-01T23:59:59") (Except.ok "+03:00")
        [("requiredOn", "2020-02-01T23:59:59")]).1 :=
  ⟨by decide,
   (createIssue_timezone (fun s => s == "2020-02-01T23:59:59") (Except.ok "+03:00")
      [("requiredOn", "2020-02-01T23:59:59")] "requiredOn" "2020-02-01T23:59:59"
      (by decide)).1,
   (createIssue_timezone (fun s => s == "2020-02-01T23:59:59") (Except.ok "+03:00")
      [("requiredOn", "2020-02-01T23:59:59")] "requiredOn" "2020-02-01T23:59:59"
      (by decide)).2.1 (by decide)⟩

end ImapHpsm

namespace ImapHpsm

/-- Helper: `lastGtIdx` points at a `>`; the list splits around it. -/
theorem lastGtIdx_split (l : List Char) (j : Nat) (h : lastGtIdx l = some j) :
    l = l.take j ++ '>' :: l.drop (j + 1) := by
  induction l generalizing j with
  | nil => simp [lastGtIdx] at h
  | cons c rest ih =>
      rw [lastGtIdx] at h
      rcases hr : lastGtIdx rest with _ | j2
      · rw [hr] at h
        by_cases hc : c == '>'
        · have hc2 : c = '>' := by simpa using hc
          simp [hc] at h
          simp [← h, hc2]
        · simp [hc] at h
      · rw [hr] at h
        simp only [Option.some.injEq] at h
        subst h
        simpa using ih j2 hr

/-- Helper: a list containing `>` has a last `>`. -/
theorem lastGtIdx_isSome_of_mem (l : List Char) (h : '>' ∈ l) :
    (lastGtIdx l).isSome = true := by
  induction l with
  | nil => simp at h
  | cons c rest ih =>
      rw [lastGtIdx]
      rcases hr : lastGtIdx rest with _ | j
      · rcases List.mem_cons.1 h with hc | hm
        · simp [← hc]
        · have := ih hm
          rw [hr] at this
          simp at this
      · simp

/-- Helper: `takeWhile` runs through a prefix all of whose elements satisfy
the predicate. -/
theorem takeWhile_all_append (p : Char → Bool) (b rest2 : List Char)
    (hb : ∀ x ∈ b, p x = true) :
    (b ++ rest2).takeWhile p = b ++ rest2.takeWhile p := by
  induction b with
  | nil => rfl
  | cons x xs ih =>
      have hx := hb x (List.mem_cons_self x xs)
      simp only [List.cons_append, List.takeWhile_cons, hx, if_true]
      rw [ih (fun y hy => hb y (List.mem_cons_of_mem x hy))]

/-- Helper: the angle-bracket regex matches exactly on the strings that
contain an angle-bracket-delimited substring with no intervening newline. -/
theorem jsMatchAngle_isSome_iff (cs : List Char) :
    (jsMatchAngle cs).isSome = true ↔ HasAngleAddress cs := by
  constructor
  · intro h
    induction cs with
    | nil => simp [jsMatchAngle] at h
    | cons c rest ih =>
        rw [jsMatchAngle] at h
        by_cases hc : c == '<'
        · rw [if_pos hc] at h
          rcases hg : lastGtIdx (rest.takeWhile fun x => !(isLineTerminator x)) with _ | j
          · rw [hg] at h
            obtain ⟨a, b, c2, hcs, hb⟩ := ih h
            exact ⟨c :: a, b, c2, by simp [hcs], hb⟩
          · have hceq : c = '<' := by simpa using hc
            have hsp := lastGtIdx_split _ j hg
            have hjoin :
                (rest.takeWhile fun x => !(isLineTerminator x)) ++
                  (rest.dropWhile fun x => !(isLineTerminator x)) = rest :=
              List.takeWhile_append_dropWhile _ _
            refine ⟨[], (rest.takeWhile fun x => !(isLineTerminator x)).take j,
              (rest.takeWhile fun x => !(isLineTerminator x)).drop (j + 1) ++
                (rest.dropWhile fun x => !(isLineTerminator x)), ?_, ?_⟩
            · rw [List.nil_append, hceq]
              conv_lhs => rw [← hjoin]
              conv_lhs => rw [hsp]
              simp
            · intro x hx
              have hmem := List.mem_of_mem_take hx
              have := List.mem_takeWhile_imp hmem
              simpa using this
        · rw [if_neg hc] at h
          obtain ⟨a, b, c2, hcs, hb⟩ := ih h
          exact ⟨c :: a, b, c2, by simp [hcs], hb⟩
  · rintro ⟨a, b, c2, hcs, hb⟩
    subst hcs
    induction a with
    | nil =>
        rw [List.nil_append, jsMatchAngle]
        rw [if_pos (by simp)]
        have hbp : ∀ x ∈ b, (!(isLineTerminator x)) = true := by
          intro x hx
          simp [hb x hx]
        rw [takeWhile_all_append _ b ('>' :: c2) hbp]
        rw [List.takeWhile_cons]
        rw [if_pos (by decide)]
        have hmem : '>' ∈ b ++ '>' :: (c2.takeWhile fun x => !(isLineTerminator x)) := by simp
        have hsome := lastGtIdx_isSome_of_mem _ hmem
        rcases hg : lastGtIdx (b ++ '>' :: (c2.takeWhile fun x => !(isLineTerminator x)))
            with _ | j
        · simp [hg] at hsome
        · simp
    | cons x a2 ih =>
        rw [List.cons_append, jsMatchAngle]
        by_cases hx : x == '<'
        · rw [if_pos hx]
          rcases hg : lastGtIdx ((a2 ++ '<' :: (b ++ '>' :: c2)).takeWhile
              fun y => !(isLineTerminator y)) with _ | j
          · exact ih
          · simp
        · rw [if_neg hx]
          exact ih

/-- Claim C10: `parseEmailAddress` — and with it the synchronous prefix of
`getPersonIdByEmail` — requires the from-header string to contain an
angle-bracket-delimited address: on every string containing one it returns
the matched span with the angle brackets stripped (and `getPersonIdByEmail`
proceeds to return normally), and on every string without one it throws a
synchronous `TypeError` (modelled by `Except.error ()`) instead of returning
a rejected promise. -/
theorem parseEmailAddress_requires_angle (s : String) :
    (HasAngleAddress s.data →
        ∃ m, jsMatchAngle s.data = some m ∧
          parseEmailAddress s = Except.ok ⟨stripAngleBrackets m⟩ ∧
          ∃ r, getPersonIdByEmail s = Except.ok r) ∧
    (¬ HasAngleAddress s.data →
        parseEmailAddress s = Except.error () ∧
        getPersonIdByEmail s = Except.error ()) := by
  constructor
  · intro h
    have hs := (jsMatchAngle_isSome_iff s.data).2 h
    rcases hm : jsMatchAngle s.data with _ | m
    · rw [hm] at hs
      simp at hs
    · refine ⟨m, rfl, by simp [parseEmailAddress, hm], ?_⟩
      by_cases he : (⟨stripAngleBrackets m⟩ : String) == ""
      · exact ⟨none, by simp [getPersonIdByEmail, parseEmailAddress, hm, he]⟩
      · exact ⟨some ⟨stripAngleBrackets m⟩,
          by simp [getPersonIdByEmail, parseEmailAddress, hm, he]⟩
  · intro h
    rcases hm : jsMatchAngle s.data with _ | m
    · exact ⟨by simp [parseEmailAddress, hm],
        by simp [getPersonIdByEmail, parseEmailAddress, hm]⟩
    · exact absurd ((jsMatchAngle_isSome_iff s.data).1 (by simp [hm])) h

/-- Witness for `parseEmailAddress_requires_angle`: the S1 sender
`Alice <alice@x>` yields an address, while `bob` (no angle brackets) and a
bracket pair split by a carriage return (a LineTerminator `.` cannot cross)
both throw. -/
theorem parseEmailAddress_requires_angle_witness :
    (∃ m, jsMatchAngle "Alice <alice@x>".data = some m ∧
        parseEmailAddress "Alice <alice@x>" = Except.ok ⟨stripAngleBrackets m⟩ ∧
        ∃ r, getPersonIdByEmail "Alice <alice@x>" = Except.ok r) ∧
    (parseEmailAddress "bob" = Except.error () ∧
      getPersonIdByEmail "bob" = Except.error ()) ∧
    (parseEmailAddress "<a\r>" = Except.error () ∧
      getPersonIdByEmail "<a\r>" = Except.error ()) :=
  ⟨(parseEmailAddress_requires_angle "Alice <alice@x>").1
      ⟨"Alice ".data, "alice@x".data, [], by decide, by decide⟩,
   (parseEmailAddress_requires_angle "bob").2 (fun h =>
      absurd ((jsMatchAngle_isSome_iff "bob".data).2 h) (by decide)),
   (parseEmailAddress_requires_angle "<a\r>").2 (fun h =>
      absurd ((jsMatchAngle_isSome_iff "<a\r>".data).2 h) (by decide))⟩

end ImapHpsm
